import Mathlib

/-!
# DroidAuto — verification of the instruction-execution control loop

Shallow embedding of the core of the DroidAuto repository:
the response normalizer (`src/server/services/aiService.ts`),
the session store (`updateSessionContext`), the command dispatcher
(`src/server/services/commandExecutor.ts`), the UI element tree model
(`src/server/services/uiExtractor.ts`) and the orchestration loop
(`src/server/socketHandlers.ts`).

JavaScript objects with optional fields are embedded as Lean structures
whose fields are `Option`-typed (`none` = the field is absent /
`undefined`).  JavaScript truthiness of a string-valued field is
`truthyStr`; `undefined` and `""` are both falsy.
-/

namespace DroidAuto

/-- JS truthiness of an optional string field: `undefined` and `""` are
falsy, every other string is truthy. -/
def truthyStr : Option String → Bool
  | none => false
  | some s => s ≠ ""

/-! ## Command model (`commandExecutor.ts`, `aiService.ts`)

A raw command object as it appears in a parsed model response and as it
is consumed by `executeCommand`.  All scalar fields a command may carry
are collected in `CmdFields`; a command additionally carries an optional
`commands` array (used by the `composite` variant), which makes the type
recursive. -/

/-- The scalar fields of a command object (each optional, as in the raw
JSON the model returns). -/
structure CmdFields where
  type : Option String := none
  action : Option String := none
  x : Option Int := none
  y : Option Int := none
  startX : Option Int := none
  startY : Option Int := none
  endX : Option Int := none
  endY : Option Int := none
  duration : Option Int := none
  keycode : Option Int := none
  text : Option String := none
  coordinate : Option (List Int) := none
  coordinate2 : Option (List Int) := none
  isTaskComplete : Option Bool := none
  isFinalCommand : Option Bool := none
  deriving Repr, DecidableEq

/-- A command object: scalar fields plus the optional nested `commands`
array of the `composite` variant. -/
inductive Command where
  | mk (fields : CmdFields) (sub : Option (List Command))

/-- The scalar fields of a command. -/
def Command.fields : Command → CmdFields
  | .mk f _ => f

/-- The nested `commands` array of a command (`none` when absent). -/
def Command.sub : Command → Option (List Command)
  | .mk _ s => s

/-- Replace the scalar fields of a command, keeping its nested
`commands` array. -/
def Command.withFields : Command → CmdFields → Command
  | .mk _ s, f => .mk f s

/-! ## Response normalizer (`aiService.ts`, `normalizeCommand`) -/

/-- `normalizeCommand` of `aiService.ts` restricted to the scalar
fields (the function never touches the nested `commands` array).
Repairs the known parameter-naming drift:
`action` → `type`, `click`/`tap`+`coordinate` pair → `x`/`y`,
`swipe` coordinate arrays → `startX`/`startY`/`endX`/`endY`. -/
def normalizeFields (c : CmdFields) : CmdFields :=
  -- 如果使用了action而不是type
  let c :=
    if truthyStr c.action && !truthyStr c.type then
      { c with type := c.action, action := none }
    else c
  -- 处理点击命令格式
  let coordLen2 : Bool :=
    match c.coordinate with
    | some l => l.length == 2
    | none => false
  let c :=
    if c.type == some "click" || (c.type == some "tap" && coordLen2) then
      let c := { c with type := some "tap" }
      if coordLen2 then
        { c with
          x := (c.coordinate.getD []).get? 0
          y := (c.coordinate.getD []).get? 1
          coordinate := none }
      else c
    else c
  -- 处理滑动命令格式
  if c.type == some "swipe" then
    if c.coordinate.isSome && c.coordinate2.isSome then
      { c with
        startX := (c.coordinate.getD []).get? 0
        startY := (c.coordinate.getD []).get? 1
        endX := (c.coordinate2.getD []).get? 0
        endY := (c.coordinate2.getD []).get? 1
        coordinate := none
        coordinate2 := none }
    else if c.coordinate.isSome && (c.coordinate.getD []).length == 4 then
      { c with
        startX := (c.coordinate.getD []).get? 0
        startY := (c.coordinate.getD []).get? 1
        endX := (c.coordinate.getD []).get? 2
        endY := (c.coordinate.getD []).get? 3
        coordinate := none }
    else c
  else c

/-- `normalizeCommand` on a full command object: the scalar fields are
repaired, the nested `commands` array is untouched. -/
def normalizeCommand (c : Command) : Command :=
  c.withFields (normalizeFields c.fields)

-- Sanity: the worked alias-repair example of the spec.
example :
    normalizeFields { action := some "click", coordinate := some [160, 200] } =
      { type := some "tap", x := some 160, y := some 200 } := by decide

example :
    normalizeFields
        { type := some "swipe", coordinate := some [10, 20], coordinate2 := some [10, 200] } =
      { type := some "swipe", startX := some 10, startY := some 20,
        endX := some 10, endY := some 200 } := by decide

/-! ## Parsed model response post-processing (`aiService.ts`,
`parseModelResponse`, the branch after a successful `JSON.parse`) -/

/-- The JSON object extracted from the raw model text, as produced by
`JSON.parse` inside `parseModelResponse` (every field optional). -/
structure RawResponse where
  thinking : Option String := none
  commands : Option (List Command) := none
  result : Option String := none
  isTaskComplete : Option Bool := none

/-- The `AIResponse` produced by `parseModelResponse` (the
`cleanResponse` object). -/
structure AIResponse where
  thinking : String
  commands : List Command
  result : Option String := none
  isTaskComplete : Option Bool := none

/-- `parsedResponse.commands[parsedResponse.commands.length - 1].isFinalCommand = true`:
mark the last command of the list as final (no-op on the empty list). -/
def setLastFinal : List Command → List Command
  | [] => []
  | [c] => [c.withFields { c.fields with isFinalCommand := some true }]
  | c :: c' :: rest => c :: setLastFinal (c' :: rest)

/-- The per-command flag defaulting of `parseModelResponse`:
`cmd.isTaskComplete` defaults to `parsedResponse.isTaskComplete || false`
when `undefined`, `cmd.isFinalCommand` defaults to `false` when
`undefined`. -/
def defaultFlags (respComplete : Option Bool) (c : Command) : Command :=
  let f := c.fields
  let f :=
    if f.isTaskComplete = none then
      { f with isTaskComplete := some (respComplete.getD false) }
    else f
  let f :=
    if f.isFinalCommand = none then { f with isFinalCommand := some false }
    else f
  c.withFields f

/-- `parseModelResponse` from the point where `JSON.parse` has produced
`parsedResponse`: fill the missing `thinking`/`commands` fields, repair
each command with `normalizeCommand`, default the completion/finality
flags, force the last command final, and build the clean response. -/
def parseParsedResponse (r : RawResponse) : AIResponse :=
  -- 确保响应包含必要的字段 (`!parsedResponse.thinking` is JS-falsy)
  let thinking := if truthyStr r.thinking then r.thinking.getD "" else "无分析过程"
  let cmds := r.commands.getD []
  -- 处理命令格式
  let cmds := cmds.map normalizeCommand
  -- 添加任务完成标记
  let cmds := cmds.map (defaultFlags r.isTaskComplete)
  -- 将最后一个命令标记为最终命令
  let cmds := setLastFinal cmds
  { thinking := thinking
    commands := cmds
    result := r.result
    isTaskComplete := r.isTaskComplete }

/-! ## Session store (`aiService.ts`, `updateSessionContext`) -/

/-- `MAX_CONTEXT_ITEMS` of `aiService.ts`. -/
def MAX_CONTEXT_ITEMS : Nat := 5

/-- The condensed command stored in history (`SimpleCommand`). -/
structure SimpleCommand where
  type : Option String
  isTaskComplete : Option Bool
  deriving Repr, DecidableEq

/-- The condensed AI response stored in history (`SimpleAIResponse`). -/
structure SimpleAIResponse where
  thinking : String
  commands : List SimpleCommand
  result : Option String
  isTaskComplete : Option Bool
  deriving Repr, DecidableEq

/-- A history item as stored in the session (`SessionHistoryItem`, with
only the lightweight timestamp references to captures). -/
structure StoredHistoryItem where
  instruction : String
  screenshotTs : Option Int
  uiTs : Option Int
  parsedResponse : SimpleAIResponse
  deriving Repr, DecidableEq

/-- The item handed to `updateSessionContext` (its `parsedResponse` is
still the full `AIResponse`). -/
structure NewHistoryItem where
  instruction : String
  screenshotTs : Option Int := none
  uiTs : Option Int := none
  parsedResponse : AIResponse

/-- `SessionContext`: both fields are optional in the TypeScript
interface. -/
structure SessionContext where
  history : Option (List StoredHistoryItem) := none
  lastOperation : Option (String × String) := none

/-- The condensation performed inside `updateSessionContext`: keep the
first 150 characters of `thinking` and only `type`/`isTaskComplete` of
each command. -/
def simplifyResponse (r : AIResponse) : SimpleAIResponse where
  thinking := r.thinking.take 150
  commands := r.commands.map fun c =>
    { type := c.fields.type, isTaskComplete := c.fields.isTaskComplete }
  result := r.result
  isTaskComplete := r.isTaskComplete

/-- The condensed history item built inside `updateSessionContext`
(`simplifiedItem`). -/
def storeHistoryItem (item : NewHistoryItem) : StoredHistoryItem :=
  { instruction := item.instruction
    screenshotTs := item.screenshotTs
    uiTs := item.uiTs
    parsedResponse := simplifyResponse item.parsedResponse }

/-- `updateSessionContext`: initialise the history when absent, append
the condensed item, trim to the last `MAX_CONTEXT_ITEMS` entries when the
bound is exceeded, and record the last operation.  The wall-clock ISO
timestamp written into `lastOperation` is passed explicitly as `now`. -/
def updateSessionContext (ctx : SessionContext) (item : NewHistoryItem)
    (now : String) : SessionContext :=
  let h := ctx.history.getD []
  -- 添加新项目到历史记录
  let h := h ++ [storeHistoryItem item]
  -- 限制历史记录大小 (`slice(-MAX_CONTEXT_ITEMS)` keeps the last 5)
  let h :=
    if h.length > MAX_CONTEXT_ITEMS then h.drop (h.length - MAX_CONTEXT_ITEMS)
    else h
  { history := some h
    lastOperation := some (item.instruction, now) }

/-! ## Basic lemmas about the normalizer -/

theorem Command.fields_withFields (c : Command) (f : CmdFields) :
    (c.withFields f).fields = f := by
  cases c
  rfl

theorem normalizeFields_isFinalCommand (c : CmdFields) :
    (normalizeFields c).isFinalCommand = c.isFinalCommand := by
  unfold normalizeFields
  dsimp only
  repeat' split
  all_goals rfl

theorem normalizeFields_isTaskComplete (c : CmdFields) :
    (normalizeFields c).isTaskComplete = c.isTaskComplete := by
  unfold normalizeFields
  dsimp only
  repeat' split
  all_goals rfl

/-- After the flag-defaulting pass, `isFinalCommand` is the
model-supplied value when present and `false` otherwise. -/
theorem defaultFlags_isFinalCommand (rc : Option Bool) (c : Command) :
    (defaultFlags rc c).fields.isFinalCommand =
      some (c.fields.isFinalCommand.getD false) := by
  unfold defaultFlags
  dsimp only
  rw [Command.fields_withFields]
  cases h : c.fields.isFinalCommand <;> split <;> simp_all

/-- The per-command preprocessing of `parseModelResponse`
(`normalizeCommand` then flag defaulting) turns `isFinalCommand` into
`some (model-supplied value, defaulting to false)`. -/
theorem step_isFinalCommand (rc : Option Bool) (c : Command) :
    (defaultFlags rc (normalizeCommand c)).fields.isFinalCommand =
      some (c.fields.isFinalCommand.getD false) := by
  rw [defaultFlags_isFinalCommand, normalizeCommand,
    Command.fields_withFields, normalizeFields_isFinalCommand]

/-- `setLastFinal` on a mapped non-empty list, described through the
`isFinalCommand` projections: every command but the last keeps the value
given by `step`, the last is forced `some true`. -/
theorem setLastFinal_map_spec (step : Command → Command)
    (v : Command → Option Bool)
    (hstep : ∀ c, (step c).fields.isFinalCommand = v c) :
    ∀ l : List Command, l ≠ [] →
      (setLastFinal (l.map step)).map (fun c => c.fields.isFinalCommand) =
        l.dropLast.map v ++ [some true]
  | [], h => absurd rfl h
  | [c], _ => by
      simp [setLastFinal, Command.fields_withFields]
  | c :: c' :: rest, _ => by
      have ih := setLastFinal_map_spec step v hstep (c' :: rest) (by simp)
      simp only [List.map_cons, setLastFinal, List.dropLast_cons₂] at ih ⊢
      rw [ih, hstep]
      simp

/-! ## Session mutation of the `send-instruction` handler
(`socketHandlers.ts`, `setupSocketHandlers`)

`handleAIInstruction` receives `socket.sessionContext || {}` — a fresh
empty object when the socket has no context yet — and mutates it via
`updateSessionContext` (appending the history item of this LLM
round-trip).  After the call the handler overwrites
`socket.sessionContext` with
`{ ...socket.sessionContext, history: socket.sessionContext?.history || [],
   lastOperation: {instruction, timestamp} }`.
Object identity matters: when the socket already had a context, the
object mutated by the AI service *is* `socket.sessionContext`, so the
rebuild sees the appended history; when it did not, the mutation went
into the discarded temporary and the rebuild reads `undefined`. -/

/-- The history item appended during `handleAIInstruction`'s round-trip
(`instruction || '自动纠错'`, capture timestamps reduced to references). -/
def aiHistoryItem (instruction : String) (ssTs uiTs : Option Int)
    (resp : AIResponse) : NewHistoryItem :=
  { instruction := if instruction = "" then "自动纠错" else instruction
    screenshotTs := ssTs
    uiTs := uiTs
    parsedResponse := resp }

/-- The session context held by the socket after one `send-instruction`
round: the AI service appends to `pre.getD {}` (mutating the socket's
object only when `pre` was present), then the handler rebuilds the
socket's context from `socket.sessionContext?.history || []`. -/
def sendInstructionSessionUpdate (pre : Option SessionContext)
    (instruction : String) (ssTs uiTs : Option Int) (resp : AIResponse)
    (now : String) : SessionContext :=
  let passed : SessionContext := pre.getD {}
  let afterAI := updateSessionContext passed
    (aiHistoryItem instruction ssTs uiTs resp) now
  -- after the awaited call, `socket.sessionContext` is the mutated object
  -- when it existed before the call, and still `undefined` otherwise
  let current : Option SessionContext := pre.map (fun _ => afterAI)
  { history := some (((current.map (·.history)).join).getD [])
    lastOperation := some (instruction, now) }

/-! ## Command dispatcher (`commandExecutor.ts`) -/

/-- A raw input dispatched to the device transport
(`androidConnection.ts`): the argument values exactly as the dispatcher
passes them (`none` = JavaScript `undefined`). -/
inductive PrimAction where
  | tap (x y : Option Int)
  | swipe (startX startY endX endY : Option Int) (duration : Int)
  | inputText (text : Option String)
  | pressKey (keycode : Option Int)
  deriving Repr, DecidableEq

/-- A successful command result (`CommandResult` /
`CompositeCommandResult`; the `success: true` flag is implicit). -/
inductive CmdResult where
  | acted (a : PrimAction)
  | waited (duration : Int)
  | composite (results : List CmdResult)

/-- Outcome of `executeCommand`: a returned result, or a thrown error
with its message. -/
inductive ExecOutcome where
  | ok (r : CmdResult)
  | err (msg : String)

/-- The device transport: `none` = the underlying adb call succeeds,
`some msg` = it throws `msg`. -/
def TransportEnv : Type := PrimAction → Option String

/-- Run one transport call: the result object on success, the thrown
message on failure. -/
def transportCall (env : TransportEnv) (a : PrimAction) :
    ExecOutcome × List PrimAction :=
  match env a with
  | none => (.ok (.acted a), [a])
  | some m => (.err m, [a])

mutual
/-- `executeCommand` of `commandExecutor.ts`.  Returns the outcome and
the ordered list of raw inputs dispatched to the device transport.
`fuel` bounds the nesting depth of composite commands (the source
recursion is unbounded); all claims are settled at sufficient fuel. -/
def executeCommand (env : TransportEnv) : Nat → Command →
    ExecOutcome × List PrimAction
  | 0, _ => (.err "递归深度超限", [])
  | fuel + 1, .mk f sub =>
    if ¬ truthyStr f.type then (.err "无效的命令格式", [])
    else
      let t := f.type.getD ""
      if t = "tap" then transportCall env (.tap f.x f.y)
      else if t = "swipe" then
        transportCall env (.swipe f.startX f.startY f.endX f.endY (f.duration.getD 300))
      else if t = "text" then transportCall env (.inputText f.text)
      else if t = "key" then transportCall env (.pressKey f.keycode)
      else if t = "wait" then
        -- `wait(waitCmd.duration || 1000)`: no transport call at all
        (.ok (.waited (match f.duration with
          | some d => if d = 0 then 1000 else d
          | none => 1000)), [])
      else if t = "back" then transportCall env (.pressKey (some 4))
      else if t = "home" then transportCall env (.pressKey (some 3))
      else if t = "app_switch" then transportCall env (.pressKey (some 187))
      else if t = "composite" then
        match sub with
        | none => (.err "复合命令必须是命令数组且不能为空", [])
        | some [] => (.err "复合命令必须是命令数组且不能为空", [])
        | some (c :: cs) =>
          match executeCommandList env fuel (c :: cs) with
          | (.ok rs, tr) => (.ok (.composite rs), tr)
          | (.error m, tr) => (.err m, tr)
      else (.err ("未知的命令类型: " ++ t), [])

/-- The inner loop of `executeCompositeCommand`: execute the commands in
order, collecting their results; the first thrown error propagates and
aborts the remainder. -/
def executeCommandList (env : TransportEnv) : Nat → List Command →
    (Except String (List CmdResult)) × List PrimAction
  | 0, _ => (.error "递归深度超限", [])
  | _ + 1, [] => (.ok [], [])
  | fuel + 1, c :: rest =>
    match executeCommand env fuel c with
    | (.err m, tr) => (.error m, tr)
    | (.ok r, tr) =>
      match executeCommandList env fuel rest with
      | (.error m, tr2) => (.error m, tr ++ tr2)
      | (.ok rs, tr2) => (.ok (r :: rs), tr ++ tr2)
end

/-! ## Element tree model (`uiExtractor.ts`) -/

/-- The bounds record of a UI element. -/
structure Bounds where
  left : Int
  top : Int
  right : Int
  bottom : Int
  centerX : Int
  centerY : Int
  width : Int
  height : Int
  deriving Repr, DecidableEq

/-- The all-zero bounds record returned for missing or unparsable bounds
strings. -/
def zeroBounds : Bounds :=
  { left := 0, top := 0, right := 0, bottom := 0, centerX := 0, centerY := 0,
    width := 0, height := 0 }

/-- Numeric value of a digit run (the `Number(...)` conversion of a
matched `\d+` group). -/
def digitsVal (ds : List Char) : Nat :=
  ds.foldl (fun n c => 10 * n + (c.toNat - 48)) 0

/-- Greedily consume a non-empty run of decimal digits (`\d+`). -/
def parseNum (l : List Char) : Option (Nat × List Char) :=
  let ds := l.takeWhile (·.isDigit)
  if ds.isEmpty then none else some (digitsVal ds, l.dropWhile (·.isDigit))

/-- Consume one expected literal character. -/
def expectChar (c : Char) : List Char → Option (List Char)
  | [] => none
  | a :: rest => if a = c then some rest else none

/-- Attempt the regex `\[(\d+),(\d+)\]\[(\d+),(\d+)\]` at the start of
the character list, returning the four captured numbers.  With this
pattern greedy matching is deterministic, so maximal-munch digit runs
are exactly the JavaScript regex semantics. -/
def matchBoundsAt (l : List Char) : Option (Nat × Nat × Nat × Nat) := do
  let l ← expectChar '[' l
  let (a, l) ← parseNum l
  let l ← expectChar ',' l
  let (b, l) ← parseNum l
  let l ← expectChar ']' l
  let l ← expectChar '[' l
  let (c, l) ← parseNum l
  let l ← expectChar ',' l
  let (d, l) ← parseNum l
  let _ ← expectChar ']' l
  pure (a, b, c, d)

/-- Unanchored, leftmost regex search (`String.prototype.match`):
try the pattern at each successive position. -/
def findBoundsMatch : List Char → Option (Nat × Nat × Nat × Nat)
  | [] => none
  | c :: rest =>
    match matchBoundsAt (c :: rest) with
    | some r => some r
    | none => findBoundsMatch rest

/-- `parseBounds` of `uiExtractor.ts`: a falsy (`undefined` or empty)
bounds string and an unmatched pattern both yield the all-zero record;
a match yields the four coordinates with the floor-midpoint centers and
the width/height differences. -/
def parseBounds (boundsStr : Option String) : Bounds :=
  if ¬ truthyStr boundsStr then zeroBounds
  else
    match findBoundsMatch (boundsStr.getD "").toList with
    | none => zeroBounds
    | some (l, t, r, b) =>
      { left := (l : Int)
        top := (t : Int)
        right := (r : Int)
        bottom := (b : Int)
        -- 添加中心点坐标，方便点击操作 (`Math.floor((left + right) / 2)`)
        centerX := (((l + r) / 2 : Nat) : Int)
        centerY := (((t + b) / 2 : Nat) : Int)
        width := (r : Int) - (l : Int)
        height := (b : Int) - (t : Int) }

/-- A raw layout node as produced by the XML parse (`parsed.hierarchy`
subtree): the attributes `processNode` reads, plus the child list. -/
inductive RawNode where
  | mk (cls resourceId text contentDesc clickable bounds : Option String)
       (children : List RawNode)

/-- A node of the processed element tree (`UIElement`). -/
inductive UIElement where
  | mk (type id text contentDesc : Option String) (clickable : Bool)
       (bounds : Bounds) (depth : Nat) (children : List UIElement)

/-- The `type` attribute of an element (`node.class`). -/
def UIElement.type : UIElement → Option String
  | .mk t _ _ _ _ _ _ _ => t

/-- The `id` attribute of an element (`node.resource_id`). -/
def UIElement.id : UIElement → Option String
  | .mk _ i _ _ _ _ _ _ => i

/-- The `text` attribute of an element. -/
def UIElement.text : UIElement → Option String
  | .mk _ _ t _ _ _ _ _ => t

/-- The `contentDesc` attribute of an element. -/
def UIElement.contentDesc : UIElement → Option String
  | .mk _ _ _ c _ _ _ _ => c

/-- The clickability flag of an element. -/
def UIElement.clickable : UIElement → Bool
  | .mk _ _ _ _ c _ _ _ => c

/-- The bounds record of an element. -/
def UIElement.bounds : UIElement → Bounds
  | .mk _ _ _ _ _ b _ _ => b

/-- The children of an element. -/
def UIElement.children : UIElement → List UIElement
  | .mk _ _ _ _ _ _ _ ch => ch

/-- `processNode` of `uiExtractor.ts`: recursively convert a raw layout
node, parsing its bounds and processing the children depth-first in
order. -/
def processNode : RawNode → Nat → UIElement
  | .mk cls rid txt cdesc clickable bounds children, depth =>
    .mk cls rid txt cdesc (clickable == some "true") (parseBounds bounds)
      depth (children.attach.map (fun ch => processNode ch.1 (depth + 1)))
  decreasing_by
    simp_wf
    have := List.sizeOf_lt_of_mem ch.2
    omega

/-- The predicate options of `findClickableElements`
(`FindClickableOptions`, every field optional). -/
structure FindClickableOptions where
  text : Option String := none
  contentDesc : Option String := none
  resourceId : Option String := none
  className : Option String := none

/-- The per-element filter of `findClickableElements`: start from
`matches = true` and clear it whenever a truthy predicate field differs
from the element's attribute. -/
def optionsMatch (o : FindClickableOptions) (e : UIElement) : Bool :=
  let m := true
  let m := if truthyStr o.text && (e.text != o.text) then false else m
  let m := if truthyStr o.contentDesc && (e.contentDesc != o.contentDesc) then false else m
  let m := if truthyStr o.resourceId && (e.id != o.resourceId) then false else m
  let m := if truthyStr o.className && (e.type != o.className) then false else m
  m

/-- `findClickableElements` of `uiExtractor.ts`: depth-first pre-order
traversal collecting the clickable elements that satisfy all supplied
predicate fields. -/
def findClickableElements (o : FindClickableOptions) : UIElement → List UIElement
  | .mk t i txt cd c b d children =>
    (if optionsMatch o (.mk t i txt cd c b d children) && c
      then [UIElement.mk t i txt cd c b d children] else []) ++
      (children.attach.map (fun ch => findClickableElements o ch.1)).flatten
  decreasing_by
    simp_wf
    have := List.sizeOf_lt_of_mem ch.2
    omega

/-! ## Orchestration loop (`socketHandlers.ts`)

The loop's I/O collaborators (device dispatch outcomes, the AI service's
continuation and error-correction responses, capture) are abstracted as
an oracle `OrchEnv` consulted in call order; the loop itself is the
faithful control flow of `executeCommandSequence`,
`executeAndHandleSingleCommand`, `continueTaskExecution` and
`handleErrorCorrection`.  Observable behavior is a trace of events. -/

/-- At the orchestration level a command is handled by its scalar fields
only (`isTaskComplete` is the one field the loop reads). -/
abbrev OrchCmd := CmdFields

/-- Observable events of one instruction's execution. -/
inductive Ev where
  /-- `executeCommand` invoked for a command (`command-start` emitted,
  dispatch attempted). -/
  | dispatch (c : OrchCmd)
  /-- the dispatch returned successfully (`command-result`,
  `success: true`). -/
  | dispatchOk (c : OrchCmd)
  /-- the dispatch threw (`command-result`, `success: false`). -/
  | dispatchFail (c : OrchCmd) (msg : String)
  /-- `handleErrorCorrection` entered, carrying the failing command and
  its error message (`error-correction-start`, AI called with
  `{command, message}`). -/
  | corrInvoke (c : OrchCmd) (msg : String)
  /-- the error-correction sub-flow itself threw and was reported as a
  non-fatal `error` notice. -/
  | corrNotice (msg : String)
  /-- `continueTaskExecution` entered: a continuation round (new screen
  capture + continuation prompt) for the given previous command. -/
  | contRound (prev : OrchCmd)
  /-- a `task-result` event surfaced to the client. -/
  | taskResult (s : String)
  deriving Repr, DecidableEq

/-- The oracle for the loop's I/O collaborators, each consulted with a
running per-kind call counter. -/
structure OrchEnv where
  /-- outcome of the n-th device dispatch: `none` = success,
  `some msg` = `executeCommand` throws `msg`. -/
  dispatchFails : Nat → Option String
  /-- whether the n-th error-correction sub-flow throws internally
  (capture or gateway failure), and its message. -/
  corrThrows : Nat → Option String
  /-- corrective commands returned by the n-th error-correction AI
  call. -/
  corrCommands : Nat → List OrchCmd
  /-- `result` field of the n-th continuation AI response. -/
  contResult : Nat → Option String
  /-- commands of the n-th continuation AI response. -/
  contCommands : Nat → List OrchCmd

/-- Call counters for the oracle. -/
structure OrchSt where
  nDispatch : Nat := 0
  nCorr : Nat := 0
  nCont : Nat := 0
  deriving Repr, DecidableEq

mutual
/-- `executeAndHandleSingleCommand`: dispatch one command; on success
wait for the settle delay, on failure invoke the error-correction
sub-flow.  Returns the `success` flag of the `CommandResult`. -/
def execSingle (env : OrchEnv) : Nat → OrchSt → OrchCmd →
    Bool × OrchSt × List Ev
  | 0, st, _ => (true, st, [])
  | fuel + 1, st, c =>
    match env.dispatchFails st.nDispatch with
    | none =>
      (true, { st with nDispatch := st.nDispatch + 1 },
        [.dispatch c, .dispatchOk c])
    | some msg =>
      let st1 := { st with nDispatch := st.nDispatch + 1 }
      -- 尝试自动纠错
      let (st2, evs) := handleCorr env fuel st1 c msg
      (false, st2, [.dispatch c, .dispatchFail c msg] ++ evs)

/-- `handleErrorCorrection`: one corrective capture → prompt → infer
round with the failing command and message attached; its corrective
commands (if any) run through the single-command path; its own failures
are reported as an `error` notice and not retried. -/
def handleCorr (env : OrchEnv) : Nat → OrchSt → OrchCmd → String →
    OrchSt × List Ev
  | 0, st, _, _ => (st, [])
  | fuel + 1, st, c, msg =>
    match env.corrThrows st.nCorr with
    | some m =>
      ({ st with nCorr := st.nCorr + 1 }, [.corrInvoke c msg, .corrNotice m])
    | none =>
      let cmds := env.corrCommands st.nCorr
      let st1 := { st with nCorr := st.nCorr + 1 }
      let (st2, evs) := corrList env fuel st1 cmds
      (st2, [.corrInvoke c msg] ++ evs)

/-- The corrective-command loop inside `handleErrorCorrection`: every
corrective command is executed through `executeAndHandleSingleCommand`,
with no break and no continuation decision. -/
def corrList (env : OrchEnv) : Nat → OrchSt → List OrchCmd →
    OrchSt × List Ev
  | 0, st, _ => (st, [])
  | _ + 1, st, [] => (st, [])
  | fuel + 1, st, c :: rest =>
    let (_, st1, evs) := execSingle env fuel st c
    let (st2, evs2) := corrList env fuel st1 rest
    (st2, evs ++ evs2)

/-- `executeCommandSequence`: run the batch in order; after a
successful, not-task-complete command, continue the task; stop on
failure or completion. -/
def execSeq (env : OrchEnv) : Nat → OrchSt → List OrchCmd →
    OrchSt × List Ev
  | 0, st, _ => (st, [])
  | _ + 1, st, [] => (st, [])
  | fuel + 1, st, c :: rest =>
    let (ok, st1, evs) := execSingle env fuel st c
    let complete := c.isTaskComplete.getD false
    -- 如果命令执行成功且任务未完成，继续处理
    let (st2, evs2) :=
      if ok && !complete then contTask env fuel st1 c else (st1, [])
    -- 如果命令失败或已完成任务，停止处理后续命令
    if !ok || complete then (st2, evs ++ evs2)
    else
      let (st3, evs3) := execSeq env fuel st2 rest
      (st3, evs ++ evs2 ++ evs3)

/-- `continueTaskExecution`: a continuation round — new capture, new
continuation prompt — whose response's `result` is surfaced and whose
commands (if any) are executed as a nested sequence. -/
def contTask (env : OrchEnv) : Nat → OrchSt → OrchCmd →
    OrchSt × List Ev
  | 0, st, _ => (st, [])
  | fuel + 1, st, prev =>
    let res := env.contResult st.nCont
    let cmds := env.contCommands st.nCont
    let st1 := { st with nCont := st.nCont + 1 }
    let evs0 := [Ev.contRound prev] ++
      (match res with
       | some s => [Ev.taskResult s]
       | none => [])
    if cmds.isEmpty then (st1, evs0)
    else
      let (st2, evs2) := execSeq env fuel st1 cmds
      (st2, evs0 ++ evs2)
end

/-! # Claims -/

/-! ## C1 — final-command marking in `parseModelResponse` -/

/-- A raw parsed response whose first (non-last) command carries a
model-supplied `isFinalCommand: true`. -/
def c1Input : RawResponse :=
  { commands := some
      [Command.mk { type := some "tap", x := some 1, y := some 2,
                    isFinalCommand := some true } none,
        Command.mk { type := some "back" } none] }

/-- **C1, counterexample.**  The claim says normalization leaves exactly
one command with `isFinalCommand = true` (the last), overriding a
model-supplied `true` on a non-last command.  On `c1Input` — two
commands, the first with model-supplied `isFinalCommand: true` — the
normalized output has `isFinalCommand = true` on *both* commands:
`parseModelResponse` only defaults the flag when it is `undefined` and
never clears a supplied `true` on a non-last command. -/
theorem C1_counterexample :
    (parseParsedResponse c1Input).commands.map
        (fun c => c.fields.isFinalCommand) = [some true, some true] ∧
      ¬ (parseParsedResponse c1Input).commands.countP
          (fun c => c.fields.isFinalCommand == some true) = 1 := by
  constructor
  · rfl
  · decide

/-- **C1 (amended).**  For every raw parsed response with a non-empty
extracted command list, the normalizer forces `isFinalCommand = true` on
the *last* command (even if the model said otherwise); every *non-last*
command keeps its model-supplied `isFinalCommand` value, defaulting to
`false` only when the model did not supply one.  Hence the output has
exactly one final marker only when the model supplied no
`isFinalCommand: true` on a non-last command. -/
theorem C1_amended (r : RawResponse) (h : r.commands.getD [] ≠ []) :
    (parseParsedResponse r).commands.map (fun c => c.fields.isFinalCommand) =
      (r.commands.getD []).dropLast.map
          (fun c => some (c.fields.isFinalCommand.getD false)) ++
        [some true] := by
  unfold parseParsedResponse
  dsimp only
  rw [List.map_map]
  exact setLastFinal_map_spec _ _ (step_isFinalCommand r.isTaskComplete) _ h

/-- A one-command parsed response used to witness `C1_amended`. -/
def c1WitnessInput : RawResponse :=
  { commands := some [Command.mk { type := some "tap" } none] }

/-- Witness for `C1_amended` at a concrete one-command response. -/
theorem C1_amended_witness :
    c1WitnessInput.commands.getD [] ≠ [] ∧
      (parseParsedResponse c1WitnessInput).commands.map
          (fun c => c.fields.isFinalCommand) =
        (c1WitnessInput.commands.getD []).dropLast.map
            (fun c => some (c.fields.isFinalCommand.getD false)) ++ [some true] :=
  ⟨by simp [c1WitnessInput], C1_amended c1WitnessInput (by simp [c1WitnessInput])⟩

/-! ## C8 — round-trip and alias repair of `normalizeCommand` -/

/-- **C8.**  Command-repair round-trip and alias repair: a command
already in the canonical schema — a `tap` with discrete `x`/`y` and no
`coordinate` pair, a `swipe` with discrete `startX`/`startY`/`endX`/`endY`
and no coordinate arrays — keeps those coordinate fields unchanged under
`normalizeCommand`; and the drifted shapes are repaired:
`{"action":"click","coordinate":[160,200]}` becomes a `tap` with
`x = 160`, `y = 200`, and a `swipe` with `coordinate`/`coordinate2`
pairs becomes the corresponding `startX`/`startY`/`endX`/`endY`. -/
theorem C8_normalize_roundtrip_and_alias :
    (∀ f : CmdFields, f.type = some "tap" → f.coordinate = none →
        (normalizeFields f).x = f.x ∧ (normalizeFields f).y = f.y) ∧
      (∀ f : CmdFields, f.type = some "swipe" → f.coordinate = none →
          (normalizeFields f).startX = f.startX ∧
            (normalizeFields f).startY = f.startY ∧
            (normalizeFields f).endX = f.endX ∧
            (normalizeFields f).endY = f.endY) ∧
      normalizeFields { action := some "click", coordinate := some [160, 200] } =
        { type := some "tap", x := some 160, y := some 200 } ∧
      normalizeFields { type := some "swipe", coordinate := some [10, 20],
                        coordinate2 := some [10, 200] } =
        { type := some "swipe", startX := some 10, startY := some 20,
          endX := some 10, endY := some 200 } := by
  refine ⟨fun f h1 h2 => ?_, fun f h1 h2 => ?_, by decide, by decide⟩
  · simp [normalizeFields, truthyStr, h1, h2]
  · simp [normalizeFields, truthyStr, h1, h2]

/-- Witness for `C8_normalize_roundtrip_and_alias` at concrete canonical
commands. -/
theorem C8_witness :
    (({ type := some "tap", x := some 5, y := some 6 } : CmdFields).type
          = some "tap" ∧
        ({ type := some "tap", x := some 5, y := some 6 } : CmdFields).coordinate
          = none ∧
        (normalizeFields { type := some "tap", x := some 5, y := some 6 }).x
          = ({ type := some "tap", x := some 5, y := some 6 } : CmdFields).x) ∧
      (({ type := some "swipe", startX := some 1, startY := some 2,
          endX := some 3, endY := some 4 } : CmdFields).type = some "swipe" ∧
        (normalizeFields { type := some "swipe", startX := some 1,
                           startY := some 2, endX := some 3, endY := some 4 }).startX
          = some 1) :=
  ⟨⟨rfl, rfl,
      (C8_normalize_roundtrip_and_alias.1
        { type := some "tap", x := some 5, y := some 6 } rfl rfl).1⟩,
    ⟨rfl,
      (C8_normalize_roundtrip_and_alias.2.1
        { type := some "swipe", startX := some 1, startY := some 2,
          endX := some 3, endY := some 4 } rfl rfl).1⟩⟩

/-! ## C6 — bounded FIFO session history -/

/-- Single-append characterization of the session history: the new
history is the old history plus the condensed new item, with the excess
over `MAX_CONTEXT_ITEMS` dropped from the front (oldest first). -/
theorem updateSessionContext_history (ctx : SessionContext)
    (item : NewHistoryItem) (now : String) :
    (updateSessionContext ctx item now).history =
      some ((ctx.history.getD [] ++ [storeHistoryItem item]).drop
        ((ctx.history.getD []).length + 1 - MAX_CONTEXT_ITEMS)) := by
  unfold updateSessionContext
  dsimp only
  split
  · simp
  · next hle =>
      simp only [List.length_append, List.length_cons, List.length_nil] at hle
      have h0 : (ctx.history.getD []).length + 1 - MAX_CONTEXT_ITEMS = 0 := by
        omega
      rw [h0, List.drop_zero]

/-- The session history length after one append. -/
theorem updateSessionContext_length (ctx : SessionContext)
    (item : NewHistoryItem) (now : String) :
    ((updateSessionContext ctx item now).history.getD []).length ≤
      MAX_CONTEXT_ITEMS := by
  rw [updateSessionContext_history]
  simp only [Option.getD_some, List.length_drop, List.length_append,
    List.length_cons, List.length_nil]
  omega

/-- **C6.**  For every session context and every non-empty sequence of
appended history items, the session history never exceeds
`MAX_CONTEXT_ITEMS = 5` entries once the appends complete, and each
append keeps the retained items in FIFO order: the history after an
append is the old history followed by the condensed new item, with
exactly the excess over the bound evicted from the front (the oldest
items first). -/
theorem C6_history_bounded_fifo (ctx : SessionContext)
    (item : NewHistoryItem) (now : String)
    (appends : List (NewHistoryItem × String)) (happ : appends ≠ []) :
    (updateSessionContext ctx item now).history =
        some ((ctx.history.getD [] ++ [storeHistoryItem item]).drop
          ((ctx.history.getD []).length + 1 - MAX_CONTEXT_ITEMS)) ∧
      ((appends.foldl (fun c p => updateSessionContext c p.1 p.2)
            ctx).history.getD []).length ≤ MAX_CONTEXT_ITEMS := by
  refine ⟨updateSessionContext_history ctx item now, ?_⟩
  induction appends generalizing ctx with
  | nil => exact absurd rfl happ
  | cons p rest ih =>
    cases rest with
    | nil => simpa using updateSessionContext_length ctx p.1 p.2
    | cons q rest' => simpa using ih (updateSessionContext ctx p.1 p.2) (by simp)

/-- Witness for `C6_history_bounded_fifo` at a concrete context and a
concrete append list. -/
theorem C6_witness :
    ([(⟨"i2", none, none, ⟨"t", [], none, none⟩⟩, "now2")]
          : List (NewHistoryItem × String)) ≠ [] ∧
      (updateSessionContext ⟨none, none⟩ ⟨"i1", none, none, ⟨"t", [], none, none⟩⟩
          "now1").history =
        some (((⟨none, none⟩ : SessionContext).history.getD [] ++
            [storeHistoryItem ⟨"i1", none, none, ⟨"t", [], none, none⟩⟩]).drop
          (((⟨none, none⟩ : SessionContext).history.getD []).length + 1 -
            MAX_CONTEXT_ITEMS)) ∧
      ((([(⟨"i2", none, none, ⟨"t", [], none, none⟩⟩, "now2")]
              : List (NewHistoryItem × String)).foldl
            (fun c p => updateSessionContext c p.1 p.2)
            ⟨none, none⟩).history.getD []).length ≤ MAX_CONTEXT_ITEMS := by
  refine ⟨by simp, ?_, ?_⟩
  · exact (C6_history_bounded_fifo ⟨none, none⟩
      ⟨"i1", none, none, ⟨"t", [], none, none⟩⟩ "now1"
      [(⟨"i2", none, none, ⟨"t", [], none, none⟩⟩, "now2")] (by simp)).1
  · exact (C6_history_bounded_fifo ⟨none, none⟩
      ⟨"i1", none, none, ⟨"t", [], none, none⟩⟩ "now1"
      [(⟨"i2", none, none, ⟨"t", [], none, none⟩⟩, "now2")] (by simp)).2

/-! ## C9 — lost first-instruction history on a fresh socket -/

/-- **C9.**  On the first `send-instruction` of a newly connected socket
(`socket.sessionContext` not yet set), the history item appended during
the instruction's LLM round-trip is not retained: the append went into
the temporary empty object passed in place of the missing context
(second conjunct — after `updateSessionContext` the temporary holds
exactly one item), while the handler rebuilds the socket context from
the pre-call `undefined` value, so its history defaults to the empty
list (first conjunct) and the next instruction's prompt sees an empty
history.  By contrast, when the socket already had a context, the
mutated object *is* the socket's context and the appended history
survives the rebuild (third conjunct). -/
theorem C9_first_instruction_history_lost (instr : String)
    (ssTs uiTs : Option Int) (resp : AIResponse) (now : String)
    (ctx : SessionContext) :
    (sendInstructionSessionUpdate none instr ssTs uiTs resp now).history =
        some [] ∧
      ((updateSessionContext ⟨none, none⟩
            (aiHistoryItem instr ssTs uiTs resp) now).history.getD []).length
        = 1 ∧
      (sendInstructionSessionUpdate (some ctx) instr ssTs uiTs resp
            now).history =
        (updateSessionContext ctx (aiHistoryItem instr ssTs uiTs resp)
            now).history := by
  refine ⟨rfl, ?_, ?_⟩
  · rw [updateSessionContext_history]
    simp [MAX_CONTEXT_ITEMS]
  · simp [sendInstructionSessionUpdate, updateSessionContext_history]

/-- Witness for `C9_first_instruction_history_lost` at a concrete
instruction and response. -/
theorem C9_witness :
    (sendInstructionSessionUpdate none "打开设置" none none ⟨"t", [], none, none⟩
          "2025-01-01").history = some [] ∧
      ((updateSessionContext ⟨none, none⟩
            (aiHistoryItem "打开设置" none none ⟨"t", [], none, none⟩)
            "2025-01-01").history.getD []).length = 1 :=
  ⟨(C9_first_instruction_history_lost "打开设置" none none ⟨"t", [], none, none⟩
      "2025-01-01" ⟨none, none⟩).1,
    (C9_first_instruction_history_lost "打开设置" none none ⟨"t", [], none, none⟩
      "2025-01-01" ⟨none, none⟩).2.1⟩

/-! ## C5 — bounds invariant of the parsed layout tree -/

/-- `centerX`/`centerY` are the floor of the midpoint of
`left`/`right` and `top`/`bottom` (integer floor characterized by the
two-sided inequality, independent of any division convention). -/
def centerOk (b : Bounds) : Prop :=
  (2 * b.centerX ≤ b.left + b.right ∧ b.left + b.right < 2 * b.centerX + 2) ∧
    (2 * b.centerY ≤ b.top + b.bottom ∧ b.top + b.bottom < 2 * b.centerY + 2)

/-- Every bounds record `parseBounds` produces satisfies the
floor-midpoint center invariant. -/
theorem parseBounds_centerOk (s : Option String) : centerOk (parseBounds s) := by
  unfold parseBounds centerOk
  split
  · simp [zeroBounds]
  · split
    · simp [zeroBounds]
    · dsimp only
      refine ⟨⟨?_, ?_⟩, ?_, ?_⟩ <;> omega

/-- All elements of a processed tree, root first, depth-first. -/
def elemsOf : UIElement → List UIElement
  | .mk t i txt cd c b d children =>
    .mk t i txt cd c b d children ::
      (children.attach.map (fun ch => elemsOf ch.1)).flatten
  decreasing_by
    simp_wf
    have := List.sizeOf_lt_of_mem ch.2
    omega

/-- The root element is among a tree's elements. -/
theorem self_mem_elemsOf (e : UIElement) : e ∈ elemsOf e := by
  cases e
  rw [elemsOf]
  exact List.mem_cons_self _ _

/-- Every element in the output of `processNode` carries a bounds record
produced by `parseBounds`. -/
theorem processNode_centerOk (raw : RawNode) (depth : Nat) :
    ∀ e ∈ elemsOf (processNode raw depth), centerOk e.bounds := by
  induction raw, depth using processNode.induct with
  | _ cls rid txt cdesc clickable bounds children depth ih =>
    intro e he
    rw [processNode] at he
    rw [elemsOf] at he
    rcases List.mem_cons.1 he with h | h
    · subst h
      exact parseBounds_centerOk bounds
    · simp only [List.mem_flatten, List.mem_map, List.mem_attach,
        true_and] at h
      obtain ⟨l, ⟨a, rfl⟩, hel⟩ := h
      obtain ⟨el, hmem⟩ := a
      obtain ⟨ch, _, rfl⟩ := List.mem_map.1 hmem
      exact ih ch e hel

/-- **C5.**  For every parsed layout node, the bounds record satisfies
`centerX = floor((left + right) / 2)` and
`centerY = floor((top + bottom) / 2)` (first conjunct, stated as the
two-sided floor inequalities over every element of every processed
tree); and every missing or malformed bounds string parses to the
all-zero bounds record — `parseBounds` is total, it never throws
(second conjunct). -/
theorem C5_bounds_invariant :
    (∀ (raw : RawNode) (depth : Nat),
        ∀ e ∈ elemsOf (processNode raw depth), centerOk e.bounds) ∧
      ∀ s : Option String,
        (¬ truthyStr s ∨ findBoundsMatch (s.getD "").toList = none) →
          parseBounds s = zeroBounds := by
  refine ⟨processNode_centerOk, fun s h => ?_⟩
  unfold parseBounds
  rcases h with h | h
  · rw [if_pos h]
  · split
    · rfl
    · rw [h]

/-- Witness for `C5_bounds_invariant`: the root element of a concrete
one-node tree with well-formed bounds, and a malformed bounds string. -/
theorem C5_witness :
    centerOk (processNode (.mk none none none none none
          (some "[10,20][30,40]") []) 0).bounds ∧
      parseBounds (some "not-bounds") = zeroBounds := by
  constructor
  · exact C5_bounds_invariant.1 _ 0 _ (self_mem_elemsOf _)
  · exact C5_bounds_invariant.2 (some "not-bounds") (Or.inr (by decide))

/-! ## C10 — empty-string predicate fields are wildcards -/

/-- If two option records filter every element identically, the
traversals agree on every tree. -/
theorem findClickableElements_congr (o1 o2 : FindClickableOptions)
    (h : ∀ e, optionsMatch o1 e = optionsMatch o2 e) :
    ∀ root, findClickableElements o1 root = findClickableElements o2 root := by
  intro root
  induction root using findClickableElements.induct o1 with
  | _ t i txt cd c b d children ih =>
    rw [findClickableElements, findClickableElements, h]
    refine congrArg _ (congrArg _ ?_)
    exact List.map_congr_left fun x hx => ih x

/-- **C10.**  In `findClickableElements`, a predicate field supplied as
the empty string behaves exactly like an unset field: the JS truthiness
guard skips the comparison for `""` just as for `undefined`, so for
every element tree the result with `{text: ""}` (and likewise
`contentDesc`, `resourceId`, `className`) equals the result with no
predicate fields at all. -/
theorem C10_empty_string_wildcard (root : UIElement) :
    findClickableElements { text := some "" } root =
        findClickableElements {} root ∧
      findClickableElements { contentDesc := some "" } root =
        findClickableElements {} root ∧
      findClickableElements { resourceId := some "" } root =
        findClickableElements {} root ∧
      findClickableElements { className := some "" } root =
        findClickableElements {} root := by
  exact ⟨findClickableElements_congr { text := some "" } {} (fun e => rfl) root,
    findClickableElements_congr { contentDesc := some "" } {} (fun e => rfl) root,
    findClickableElements_congr { resourceId := some "" } {} (fun e => rfl) root,
    findClickableElements_congr { className := some "" } {} (fun e => rfl) root⟩

/-- Witness for `C10_empty_string_wildcard` at a concrete one-element
tree. -/
theorem C10_witness :
    findClickableElements { text := some "" }
        (.mk (some "android.widget.Button") none (some "OK") none true
          zeroBounds 0 []) =
      findClickableElements {}
        (.mk (some "android.widget.Button") none (some "OK") none true
          zeroBounds 0 []) :=
  (C10_empty_string_wildcard
    (.mk (some "android.widget.Button") none (some "OK") none true
      zeroBounds 0 [])).1

/-! ## Unfolding lemmas for the dispatcher

The mutual fueled recursion reduces definitionally; these lemmas expose
one step of it for symbolic arguments. -/

theorem executeCommand_unfold (env : TransportEnv) (fuel : Nat)
    (f : CmdFields) (sub : Option (List Command)) :
    executeCommand env (fuel + 1) (.mk f sub) =
      (if ¬ truthyStr f.type then (.err "无效的命令格式", [])
       else if f.type.getD "" = "tap" then transportCall env (.tap f.x f.y)
       else if f.type.getD "" = "swipe" then
         transportCall env
           (.swipe f.startX f.startY f.endX f.endY (f.duration.getD 300))
       else if f.type.getD "" = "text" then transportCall env (.inputText f.text)
       else if f.type.getD "" = "key" then transportCall env (.pressKey f.keycode)
       else if f.type.getD "" = "wait" then
         (.ok (.waited (match f.duration with
           | some d => if d = 0 then 1000 else d
           | none => 1000)), [])
       else if f.type.getD "" = "back" then transportCall env (.pressKey (some 4))
       else if f.type.getD "" = "home" then transportCall env (.pressKey (some 3))
       else if f.type.getD "" = "app_switch" then
         transportCall env (.pressKey (some 187))
       else if f.type.getD "" = "composite" then
         match sub with
         | none => (.err "复合命令必须是命令数组且不能为空", [])
         | some [] => (.err "复合命令必须是命令数组且不能为空", [])
         | some (c :: cs) =>
           match executeCommandList env fuel (c :: cs) with
           | (.ok rs, tr) => (.ok (.composite rs), tr)
           | (.error m, tr) => (.err m, tr)
       else (.err ("未知的命令类型: " ++ f.type.getD ""), [])) := rfl

theorem executeCommandList_nil (env : TransportEnv) (fuel : Nat) :
    executeCommandList env (fuel + 1) [] = (.ok [], []) := rfl

theorem executeCommandList_cons (env : TransportEnv) (fuel : Nat)
    (c : Command) (rest : List Command) :
    executeCommandList env (fuel + 1) (c :: rest) =
      (match executeCommand env fuel c with
       | (.err m, tr) => (.error m, tr)
       | (.ok r, tr) =>
         match executeCommandList env fuel rest with
         | (.error m, tr2) => (.error m, tr ++ tr2)
         | (.ok rs, tr2) => (.ok (r :: rs), tr ++ tr2)) := rfl

/-! ## C4 — executeCommand validation -/

/-- **C4, counterexample.**  The claim says a `tap` command without `x`
and `y` fails with an invalid-command error rather than being dispatched
to the device transport.  In fact `executeCommand` only validates that
`type` is present: a `tap` with no coordinates is dispatched to the
transport as `input tap undefined undefined` (the trace contains the
transport call with both arguments absent) and returns the transport's
success result — no error is raised by the dispatcher. -/
theorem C4_counterexample :
    executeCommand (fun _ => none) 1 (.mk { type := some "tap" } none) =
      (.ok (.acted (.tap none none)), [.tap none none]) := rfl

/-- **C4 (amended).**  `executeCommand` fails with the unknown-command
error for every command whose truthy tag is unrecognized (dispatching
nothing), and with the invalid-format error exactly when the command's
`type` field is absent or empty; it performs no per-field validation —
in particular a `tap` command, with or without `x`/`y`, is always
dispatched to the device transport with whatever coordinate values it
carries. -/
theorem C4_unknown_and_missing_field (env : TransportEnv) (fuel : Nat)
    (f : CmdFields) (sub : Option (List Command)) :
    (truthyStr f.type = false →
        executeCommand env (fuel + 1) (.mk f sub) = (.err "无效的命令格式", [])) ∧
      (∀ s, f.type = some s → s ≠ "" →
          s ∉ (["tap", "swipe", "text", "key", "wait", "back", "home",
              "app_switch", "composite"] : List String) →
          executeCommand env (fuel + 1) (.mk f sub) =
            (.err ("未知的命令类型: " ++ s), [])) ∧
      (f.type = some "tap" →
          executeCommand env (fuel + 1) (.mk f sub) =
            transportCall env (.tap f.x f.y)) := by
  refine ⟨fun h => ?_, fun s hs hs0 hns => ?_, fun h => ?_⟩
  · rw [executeCommand_unfold]
    simp [h]
  · obtain ⟨h1, h2, h3, h4, h5, h6, h7, h8, h9⟩ :
        s ≠ "tap" ∧ s ≠ "swipe" ∧ s ≠ "text" ∧ s ≠ "key" ∧ s ≠ "wait" ∧
          s ≠ "back" ∧ s ≠ "home" ∧ s ≠ "app_switch" ∧ s ≠ "composite" := by
      simpa using hns
    rw [executeCommand_unfold, hs]
    simp [truthyStr, hs0, h1, h2, h3, h4, h5, h6, h7, h8, h9]
  · rw [executeCommand_unfold, h]
    simp [truthyStr]

/-- Witness for `C4_unknown_and_missing_field` at concrete commands. -/
theorem C4_witness :
    (truthyStr (none : Option String) = false ∧
        executeCommand (fun _ => none) 1 (.mk {} none) =
          (.err "无效的命令格式", [])) ∧
      (executeCommand (fun _ => none) 1 (.mk { type := some "fly" } none) =
        (.err ("未知的命令类型: " ++ "fly"), [])) ∧
      (executeCommand (fun _ => none) 1
          (.mk { type := some "tap", x := some 100, y := some 200 } none) =
        transportCall (fun _ => none) (.tap (some 100) (some 200))) :=
  ⟨⟨rfl, (C4_unknown_and_missing_field (fun _ => none) 0 {} none).1 rfl⟩,
    (C4_unknown_and_missing_field (fun _ => none) 0 { type := some "fly" }
        none).2.1 "fly" rfl (by decide) (by decide),
    (C4_unknown_and_missing_field (fun _ => none) 0
        { type := some "tap", x := some 100, y := some 200 } none).2.2 rfl⟩

/-! ## C3 — composite command execution -/

/-- The transport call a non-composite, non-wait command maps to
(`none` for other tags). -/
def simplePrim (f : CmdFields) : Option PrimAction :=
  if f.type = some "tap" then some (.tap f.x f.y)
  else if f.type = some "swipe" then
    some (.swipe f.startX f.startY f.endX f.endY (f.duration.getD 300))
  else if f.type = some "text" then some (.inputText f.text)
  else if f.type = some "key" then some (.pressKey f.keycode)
  else if f.type = some "back" then some (.pressKey (some 4))
  else if f.type = some "home" then some (.pressKey (some 3))
  else if f.type = some "app_switch" then some (.pressKey (some 187))
  else none

/-- A command with a transport-mapped tag executes as exactly its one
transport call. -/
theorem executeCommand_simplePrim (env : TransportEnv) (fuel : Nat)
    (f : CmdFields) (sub : Option (List Command)) (p : PrimAction)
    (h : simplePrim f = some p) :
    executeCommand env (fuel + 1) (.mk f sub) = transportCall env p := by
  unfold simplePrim at h
  rw [executeCommand_unfold]
  split_ifs at h with h1 h2 h3 h4 h5 h6 h7
  all_goals (injection h with h; subst h)
  · rw [h1]; simp [truthyStr]
  · rw [h2]; simp_all [truthyStr]
  · rw [h3]; simp_all [truthyStr]
  · rw [h4]; simp_all [truthyStr]
  · rw [h5]; simp_all [truthyStr]
  · rw [h6]; simp_all [truthyStr]
  · rw [h7]; simp_all [truthyStr]

/-- Behaviour of the inner composite loop on a list of transport-mapped
commands: if every mapped call succeeds, the results aggregate in order;
the first failing call aborts the remainder, discards the collected
results, and propagates the thrown message. -/
theorem executeCommandList_simple (env : TransportEnv) :
    ∀ (l : List Command) (prims : List PrimAction) (fuel : Nat),
      l.length < fuel →
      l.map (fun c => simplePrim c.fields) = prims.map some →
      ((∀ p ∈ prims, env p = none) →
          executeCommandList env fuel l =
            (.ok (prims.map CmdResult.acted), prims)) ∧
        (∀ pre p post m, prims = pre ++ p :: post →
            (∀ q ∈ pre, env q = none) → env p = some m →
            executeCommandList env fuel l = (.error m, pre ++ [p])) := by
  intro l
  induction l with
  | nil =>
    intro prims fuel hfuel hmap
    obtain rfl : prims = [] := by
      cases prims with
      | nil => rfl
      | cons q qs => simp at hmap
    obtain ⟨fuel', rfl⟩ : ∃ k, fuel = k + 1 := ⟨fuel - 1, by omega⟩
    refine ⟨fun _ => executeCommandList_nil env fuel', ?_⟩
    intro pre p post m hsplit
    exact absurd hsplit (by simp)
  | cons c rest ih =>
    intro prims fuel hfuel hmap
    cases prims with
    | nil => simp at hmap
    | cons p prims' =>
      simp only [List.map_cons, List.cons.injEq] at hmap
      obtain ⟨hp, hrest⟩ := hmap
      obtain ⟨fuel', rfl⟩ : ∃ k, fuel = k + 1 := ⟨fuel - 1, by omega⟩
      have hfuel' : rest.length < fuel' := by
        simp only [List.length_cons] at hfuel
        omega
      obtain ⟨fuel'', rfl⟩ : ∃ k, fuel' = k + 1 := ⟨fuel' - 1, by omega⟩
      obtain ⟨fc, subc⟩ := c
      have hexec :
          executeCommand env (fuel'' + 1) (.mk fc subc) = transportCall env p :=
        executeCommand_simplePrim env fuel'' fc subc p hp
      have ihr := ih prims' (fuel'' + 1) hfuel' hrest
      constructor
      · intro hall
        have hpnone : env p = none := hall p (List.mem_cons_self _ _)
        rw [executeCommandList_cons, hexec]
        rw [transportCall, hpnone]
        rw [ihr.1 (fun q hq => hall q (List.mem_cons_of_mem _ hq))]
        simp
      · intro pre pbad post m hsplit hpre hbad
        cases pre with
        | nil =>
          simp only [List.nil_append, List.cons.injEq] at hsplit
          obtain ⟨rfl, rfl⟩ := hsplit
          rw [executeCommandList_cons, hexec]
          rw [transportCall, hbad]
          simp
        | cons q pre' =>
          simp only [List.cons_append, List.cons.injEq] at hsplit
          obtain ⟨rfl, hsplit'⟩ := hsplit
          have hqnone : env p = none := hpre p (List.mem_cons_self _ _)
          rw [executeCommandList_cons, hexec]
          rw [transportCall, hqnone]
          rw [ihr.2 pre' pbad post m hsplit'
            (fun r hr => hpre r (List.mem_cons_of_mem _ hr)) hbad]
          simp

/-- The transport environment of the C3 counterexample: every call
succeeds except `back`'s `keyevent 4`. -/
def c3Env : TransportEnv := fun a =>
  if a = .pressKey (some 4) then some "按键操作失败" else none

/-- The composite command of the C3 counterexample:
`tap(1,2)`, then `back` (which fails), then `home`. -/
def c3Cmd : Command :=
  .mk { type := some "composite" }
    (some [.mk { type := some "tap", x := some 1, y := some 2 } none,
      .mk { type := some "back" } none,
      .mk { type := some "home" } none])

/-- **C3, counterexample.**  The claim says a composite command whose
inner command fails returns a `CompositeResult` aggregating all prior
successful results plus the triggering one, with its success flag
reflecting the failure.  In fact `executeCompositeCommand` never catches
inner failures: on `c3Cmd` (the second of three inner commands fails)
the dispatcher *throws* the inner error — the outcome is the propagated
error, dispatches stop after the failing `keyevent` call, the collected
prior results are discarded, and no `CompositeResult` of any shape is
returned. -/
theorem C3_counterexample :
    executeCommand c3Env 5 c3Cmd =
        (.err "按键操作失败", [.tap (some 1) (some 2), .pressKey (some 4)]) ∧
      ¬ ∃ (rs : List CmdResult) (tr : List PrimAction),
          executeCommand c3Env 5 c3Cmd = (.ok (.composite rs), tr) := by
  refine ⟨rfl, ?_⟩
  rintro ⟨rs, tr, h⟩
  rw [show executeCommand c3Env 5 c3Cmd =
      (.err "按键操作失败", [.tap (some 1) (some 2), .pressKey (some 4)])
    from rfl] at h
  simp at h

/-- **C3 (amended).**  Executing a composite command executes its inner
commands strictly in order, and the first inner failure aborts the
remaining inner commands; but instead of returning an aggregating
`CompositeResult`, the failure *propagates as a thrown error*, discarding
the results collected so far (`results` is only returned — always with
`success: true` — when every inner command succeeds). -/
theorem C3_composite_abort_propagate (env : TransportEnv) (f : CmdFields)
    (sub : List Command) (prims : List PrimAction) (fuel : Nat)
    (htype : f.type = some "composite") (hne : sub ≠ [])
    (hfuel : sub.length + 1 < fuel)
    (hsimple : sub.map (fun c => simplePrim c.fields) = prims.map some) :
    ((∀ p ∈ prims, env p = none) →
        executeCommand env fuel (.mk f (some sub)) =
          (.ok (.composite (prims.map CmdResult.acted)), prims)) ∧
      (∀ pre p post m, prims = pre ++ p :: post →
          (∀ q ∈ pre, env q = none) → env p = some m →
          executeCommand env fuel (.mk f (some sub)) = (.err m, pre ++ [p])) := by
  obtain ⟨fuel', rfl⟩ : ∃ k, fuel = k + 1 := ⟨fuel - 1, by omega⟩
  have hfuel' : sub.length < fuel' := by omega
  obtain ⟨c, cs, rfl⟩ : ∃ c cs, sub = c :: cs := by
    cases sub with
    | nil => exact absurd rfl hne
    | cons c cs => exact ⟨c, cs, rfl⟩
  have hlist := executeCommandList_simple env (c :: cs) prims fuel' hfuel' hsimple
  constructor
  · intro hall
    rw [executeCommand_unfold, htype]
    simp [truthyStr, hlist.1 hall]
  · intro pre p post m hsplit hpre hbad
    rw [executeCommand_unfold, htype]
    simp [truthyStr, hlist.2 pre p post m hsplit hpre hbad]

/-- Witness for `C3_composite_abort_propagate`: a two-command composite,
exercised both with an all-success transport and with a transport whose
second call fails. -/
theorem C3_witness :
    executeCommand (fun _ => none) 4
        (.mk { type := some "composite" }
          (some [.mk { type := some "tap", x := some 1, y := some 2 } none,
            .mk { type := some "home" } none])) =
      (.ok (.composite [.acted (.tap (some 1) (some 2)),
          .acted (.pressKey (some 3))]),
        [.tap (some 1) (some 2), .pressKey (some 3)]) ∧
      executeCommand (fun a => if a = .pressKey (some 3) then some "失败" else none) 4
        (.mk { type := some "composite" }
          (some [.mk { type := some "tap", x := some 1, y := some 2 } none,
            .mk { type := some "home" } none])) =
      (.err "失败", [.tap (some 1) (some 2), .pressKey (some 3)]) := by
  constructor
  · exact (C3_composite_abort_propagate (fun _ => none)
      { type := some "composite" }
      [.mk { type := some "tap", x := some 1, y := some 2 } none,
        .mk { type := some "home" } none]
      [.tap (some 1) (some 2), .pressKey (some 3)] 4 rfl (by simp)
      (by decide) (by decide)).1 (by simp)
  · exact (C3_composite_abort_propagate
      (fun a => if a = .pressKey (some 3) then some "失败" else none)
      { type := some "composite" }
      [.mk { type := some "tap", x := some 1, y := some 2 } none,
        .mk { type := some "home" } none]
      [.tap (some 1) (some 2), .pressKey (some 3)] 4 rfl (by simp)
      (by decide) (by decide)).2
      [.tap (some 1) (some 2)] (.pressKey (some 3)) [] "失败" rfl
      (by intro q hq; simp at hq; subst hq; simp) (by simp)

/-! ## Unfolding lemmas for the orchestration loop -/

theorem execSingle_unfold (env : OrchEnv) (fuel : Nat) (st : OrchSt)
    (c : OrchCmd) :
    execSingle env (fuel + 1) st c =
      (match env.dispatchFails st.nDispatch with
       | none =>
         (true, { st with nDispatch := st.nDispatch + 1 },
           [.dispatch c, .dispatchOk c])
       | some msg =>
         let st1 := { st with nDispatch := st.nDispatch + 1 }
         let r := handleCorr env fuel st1 c msg
         (false, r.1, [.dispatch c, .dispatchFail c msg] ++ r.2)) := by
  cases hd : env.dispatchFails st.nDispatch with
  | none =>
    show (match env.dispatchFails st.nDispatch with
      | none => _
      | some msg => _) = _
    rw [hd]
  | some msg =>
    show (match env.dispatchFails st.nDispatch with
      | none => _
      | some msg => _) = _
    rw [hd]

theorem handleCorr_unfold (env : OrchEnv) (fuel : Nat) (st : OrchSt)
    (c : OrchCmd) (msg : String) :
    handleCorr env (fuel + 1) st c msg =
      (match env.corrThrows st.nCorr with
       | some m =>
         ({ st with nCorr := st.nCorr + 1 }, [.corrInvoke c msg, .corrNotice m])
       | none =>
         let r := corrList env fuel { st with nCorr := st.nCorr + 1 }
           (env.corrCommands st.nCorr)
         (r.1, [.corrInvoke c msg] ++ r.2)) := by
  cases ht : env.corrThrows st.nCorr with
  | none =>
    show (match env.corrThrows st.nCorr with
      | some m => _
      | none => _) = _
    rw [ht]
  | some m =>
    show (match env.corrThrows st.nCorr with
      | some m => _
      | none => _) = _
    rw [ht]

theorem corrList_nil (env : OrchEnv) (fuel : Nat) (st : OrchSt) :
    corrList env (fuel + 1) st [] = (st, []) := rfl

theorem execSeq_nil (env : OrchEnv) (fuel : Nat) (st : OrchSt) :
    execSeq env (fuel + 1) st [] = (st, []) := rfl

theorem execSeq_cons (env : OrchEnv) (fuel : Nat) (st : OrchSt)
    (c : OrchCmd) (rest : List OrchCmd) :
    execSeq env (fuel + 1) st (c :: rest) =
      (let r := execSingle env fuel st c
       let complete := c.isTaskComplete.getD false
       let r2 := if r.1 && !complete then contTask env fuel r.2.1 c
         else (r.2.1, [])
       if !r.1 || complete then (r2.1, r.2.2 ++ r2.2)
       else
         let r3 := execSeq env fuel r2.1 rest
         (r3.1, r.2.2 ++ r2.2 ++ r3.2)) := rfl

theorem contTask_unfold (env : OrchEnv) (fuel : Nat) (st : OrchSt)
    (prev : OrchCmd) :
    contTask env (fuel + 1) st prev =
      (let res := env.contResult st.nCont
       let cmds := env.contCommands st.nCont
       let st1 := { st with nCont := st.nCont + 1 }
       let evs0 := [Ev.contRound prev] ++
         (match res with
          | some s => [Ev.taskResult s]
          | none => [])
       if cmds.isEmpty then (st1, evs0)
       else
         let r := execSeq env fuel st1 cmds
         (r.1, evs0 ++ r.2)) := rfl

/-! ## C2 — continuation rounds in a two-command batch -/

/-- The environment of the C2 scenario: every dispatch succeeds, every
continuation AI call returns no commands and no result. -/
def c2Env : OrchEnv :=
  { dispatchFails := fun _ => none
    corrThrows := fun _ => none
    corrCommands := fun _ => []
    contResult := fun _ => none
    contCommands := fun _ => [] }

/-- First command of the C2 scenario batch
(`isTaskComplete: false`, `isFinalCommand: false`). -/
def c2Cmd1 : OrchCmd :=
  { type := some "tap", x := some 1, y := some 2,
    isTaskComplete := some false, isFinalCommand := some false }

/-- Second command of the C2 scenario batch
(`isTaskComplete: false`, `isFinalCommand: true`). -/
def c2Cmd2 : OrchCmd :=
  { type := some "back", isTaskComplete := some false,
    isFinalCommand := some true }

/-- **C2, counterexample.**  The claim says the loop issues exactly one
continuation round, after the second command, and none after the first.
In fact `executeCommandSequence` never consults `isFinalCommand`: it
issues a continuation round after *every* successful command not marked
`isTaskComplete`, so the scenario's trace contains a continuation round
after the first command as well — two rounds in total, not one. -/
theorem C2_counterexample :
    (execSeq c2Env 10 {} [c2Cmd1, c2Cmd2]).2 =
        [.dispatch c2Cmd1, .dispatchOk c2Cmd1, .contRound c2Cmd1,
          .dispatch c2Cmd2, .dispatchOk c2Cmd2, .contRound c2Cmd2] ∧
      ¬ (execSeq c2Env 10 {} [c2Cmd1, c2Cmd2]).2.countP
          (fun e => match e with | .contRound _ => true | _ => false) = 1 := by
  constructor
  · rfl
  · decide

/-- **C2 (amended).**  For a batch of two successful commands, both with
`isTaskComplete: false` (whatever their `isFinalCommand` flags — the
loop never reads them), both commands execute in order and a
continuation round (new capture + continuation prompt) is issued after
*each* of them — after the first as well as after the second — whenever
the continuation responses carry no commands and no result. -/
theorem C2_continuation_after_each (env : OrchEnv) (c1 c2 : OrchCmd)
    (hd0 : env.dispatchFails 0 = none) (hd1 : env.dispatchFails 1 = none)
    (hc1 : c1.isTaskComplete = some false)
    (hc2 : c2.isTaskComplete = some false)
    (hr0 : env.contResult 0 = none) (hr1 : env.contResult 1 = none)
    (hk0 : env.contCommands 0 = []) (hk1 : env.contCommands 1 = []) :
    execSeq env 10 {} [c1, c2] =
      (⟨2, 0, 2⟩,
        [.dispatch c1, .dispatchOk c1, .contRound c1,
          .dispatch c2, .dispatchOk c2, .contRound c2]) := by
  have h1 : execSingle env 9 {} c1 =
      (true, ⟨1, 0, 0⟩, [.dispatch c1, .dispatchOk c1]) := by
    rw [execSingle_unfold, hd0]
  have h2 : contTask env 9 ⟨1, 0, 0⟩ c1 = (⟨1, 0, 1⟩, [.contRound c1]) := by
    rw [contTask_unfold, hr0, hk0]
    rfl
  have h3 : execSingle env 8 ⟨1, 0, 1⟩ c2 =
      (true, ⟨2, 0, 1⟩, [.dispatch c2, .dispatchOk c2]) := by
    rw [execSingle_unfold, hd1]
  have h4 : contTask env 8 ⟨2, 0, 1⟩ c2 = (⟨2, 0, 2⟩, [.contRound c2]) := by
    rw [contTask_unfold, hr1, hk1]
    rfl
  rw [execSeq_cons, h1]
  simp [hc1, hc2, h2, h3, h4, execSeq_cons, execSeq_nil]

/-- Witness for `C2_continuation_after_each` at the concrete scenario
environment and batch. -/
theorem C2_witness :
    c2Env.dispatchFails 0 = none ∧ c2Cmd1.isTaskComplete = some false ∧
      execSeq c2Env 10 {} [c2Cmd1, c2Cmd2] =
        (⟨2, 0, 2⟩,
          [.dispatch c2Cmd1, .dispatchOk c2Cmd1, .contRound c2Cmd1,
            .dispatch c2Cmd2, .dispatchOk c2Cmd2, .contRound c2Cmd2]) :=
  ⟨rfl, rfl,
    C2_continuation_after_each c2Env c2Cmd1 c2Cmd2 rfl rfl rfl rfl rfl rfl
      rfl rfl⟩

/-! ## C7 — error-correction sub-flow -/

/-- **C7.**  When a command dispatch throws, the error-correction
sub-flow is invoked exactly once for that failing dispatch, receiving
the failing command and its error message (the trace contains exactly
one `corrInvoke c msg`); if the correction AI returns zero corrective
commands, recovery ends with no further device action (no event follows
the invocation); and if the sub-flow itself throws, its failure is
reported as a single non-fatal notice and it is not retried (still
exactly one invocation, no second attempt). -/
theorem C7_error_correction_once (env : OrchEnv) (c : OrchCmd) (msg : String)
    (hfail : env.dispatchFails 0 = some msg) :
    (env.corrThrows 0 = none → env.corrCommands 0 = [] →
        execSingle env 3 {} c =
          (false, ⟨1, 1, 0⟩,
            [.dispatch c, .dispatchFail c msg, .corrInvoke c msg])) ∧
      ∀ m, env.corrThrows 0 = some m →
        execSingle env 3 {} c =
          (false, ⟨1, 1, 0⟩,
            [.dispatch c, .dispatchFail c msg, .corrInvoke c msg,
              .corrNotice m]) := by
  constructor
  · intro hthrow hcmds
    have hc : handleCorr env 2 ⟨1, 0, 0⟩ c msg =
        (⟨1, 1, 0⟩, [.corrInvoke c msg]) := by
      rw [handleCorr_unfold env 1, hthrow, hcmds]
      rfl
    rw [execSingle_unfold, hfail]
    simp [hc]
  · intro m hthrow
    have hc : handleCorr env 2 ⟨1, 0, 0⟩ c msg =
        (⟨1, 1, 0⟩, [.corrInvoke c msg, .corrNotice m]) := by
      rw [handleCorr_unfold env 1, hthrow]
    rw [execSingle_unfold, hfail]
    simp [hc]

/-- Witness for `C7_error_correction_once` at a concrete failing
dispatch whose correction returns no commands. -/
theorem C7_witness :
    ({ dispatchFails := fun _ => some "坐标超出屏幕", corrThrows := fun _ => none,
       corrCommands := fun _ => [], contResult := fun _ => none,
       contCommands := fun _ => [] } : OrchEnv).dispatchFails 0 =
        some "坐标超出屏幕" ∧
      execSingle
          { dispatchFails := fun _ => some "坐标超出屏幕",
            corrThrows := fun _ => none, corrCommands := fun _ => [],
            contResult := fun _ => none, contCommands := fun _ => [] }
          3 {} { type := some "tap" } =
        (false, ⟨1, 1, 0⟩,
          [.dispatch { type := some "tap" },
            .dispatchFail { type := some "tap" } "坐标超出屏幕",
            .corrInvoke { type := some "tap" } "坐标超出屏幕"]) :=
  ⟨rfl,
    (C7_error_correction_once
        { dispatchFails := fun _ => some "坐标超出屏幕", corrThrows := fun _ => none,
          corrCommands := fun _ => [], contResult := fun _ => none,
          contCommands := fun _ => [] }
        { type := some "tap" } "坐标超出屏幕" rfl).1 rfl rfl⟩

end DroidAuto
